import Mathlib

/-!
Verification of the PCM-to-WAV audio pipeline of the Thaidevint SSML/TTS
front-end (file `src/unnamed/part_001` of the repository).

The pipeline has three components, all embedded here:

* `decode`    — the repository function that base64-decodes a string into a
  `Uint8Array` by calling the platform primitive `atob` and copying the code
  units of the resulting binary string (`charCodeAt`, values 0..255) into the
  array one by one.  `atob` is specified by the WHATWG HTML standard as
  "forgiving-base64 decode" (Infra §4.5): ASCII whitespace is removed, then,
  when the remaining length is divisible by 4, up to two trailing `=`
  characters are removed; a remaining length ≡ 1 (mod 4) or any character
  outside the base64 alphabet is an error (`InvalidCharacterError`, the
  spec's `DecodeError`); otherwise every 4 sextets yield 3 bytes, a final 2
  or 3 sextets yield 1 or 2 bytes.  That platform algorithm is embedded
  faithfully below (`atob`).
* `decodeAudioData` — reinterprets the decoded bytes as interleaved signed
  16-bit little-endian PCM samples (`new Int16Array(data.buffer)`), computes
  `frameCount = sampleCount / numChannels`, allocates a buffer via
  `ctx.createBuffer` and fills each channel with `sample / 32768.0`.
  Platform semantics embedded with it:
  - constructing an `Int16Array` over a buffer whose byte length is odd
    throws a `RangeError` (ECMAScript, InitializeTypedArrayFromArrayBuffer);
  - `createBuffer` converts its `length` argument with `ToUint32`
    (truncating a fractional `frameCount`) and throws `NotSupportedError`
    when the resulting frame count is 0 or the channel count is outside
    its nominal range [1, implementation maximum] (Web Audio API).  The
    implementation maximum is required to be at least 32 and is exactly 32
    on the mainstream engines; the embedding models that 32-channel
    maximum;
  - an assignment `channelData[i] = v` with `i` out of bounds is a silent
    no-op for typed arrays, so the extra loop iteration performed when
    `frameCount` is fractional (the loop bound is the untruncated quotient)
    has no observable effect; the embedding returns the observable buffer.
  The sample values are modelled in `ℚ`: an int16 divided by 32768.0 is a
  dyadic rational with a 16-bit numerator, represented exactly both by the
  JS float64 division and by the float32 cells of the channel data, so the
  rational model is exact.
* `createWavBlob` — base64-decodes its argument itself and writes a 44-byte
  RIFF/WAV header followed by the raw bytes into a fresh zero-initialised
  buffer through `DataView` little-endian writes; embedded byte-for-byte via
  `setBytes` (a write of `bs` at offset `off`, the semantics of consecutive
  `setUint8`/`setUint16`/`setUint32` little-endian stores, all in bounds
  here).
* `playAudio`  — checks for `AudioContext` support (throwing the spec's
  `UnsupportedEnvironmentError` when absent), creates the output context,
  decodes, builds the buffer and starts playback.  Since the interesting
  claims about it are about error paths and the order of its steps, it is
  embedded as a straight-line function that also returns the list of
  pipeline steps it performed, in order.

Multi-byte values stored through `DataView` are first converted with
`ToUint32`/`ToUint16`, i.e. reduced mod 2^32 / 2^16; the little-endian
encoders `toLE32`/`toLE16` below perform that reduction.
-/

/-- Errors of the platform base64 primitive (`InvalidCharacterError` from
`atob`; the specification's `DecodeError`). -/
inductive DecodeError where
  | invalidInput
deriving DecidableEq, Repr

deriving instance DecidableEq for Except

/-- ASCII whitespace as removed by forgiving-base64 decode (Infra §4.5):
TAB, LF, FF, CR, SPACE. -/
def isAsciiWhitespace (c : Char) : Bool :=
  c = ' ' || c = '\t' || c = '\n' || c = '\x0c' || c = '\r'

/-- Index of a character in the base64 alphabet
(`A`-`Z` ↦ 0-25, `a`-`z` ↦ 26-51, `0`-`9` ↦ 52-61, `+` ↦ 62, `/` ↦ 63),
`none` for characters outside the alphabet. -/
def b64Index (c : Char) : Option Nat :=
  let n := c.toNat
  if 65 ≤ n ∧ n ≤ 90 then some (n - 65)
  else if 97 ≤ n ∧ n ≤ 122 then some (n - 71)
  else if 48 ≤ n ∧ n ≤ 57 then some (n + 4)
  else if n = 43 then some 62
  else if n = 47 then some 63
  else none

/-- Look up every character of the input in the base64 alphabet;
fails when any character is outside the alphabet. -/
def sextetsOf? : List Char → Option (List Nat)
  | [] => some []
  | c :: cs =>
    match b64Index c, sextetsOf? cs with
    | some v, some vs => some (v :: vs)
    | _, _ => none

/-- Turn a sequence of sextets into bytes: every 4 sextets yield 3 bytes;
a final group of 2 or 3 sextets yields 1 or 2 bytes (the low 4 resp. 2 bits
of the last sextet are discarded).  A final group of 1 sextet cannot reach
this function (forgiving-base64 rejects lengths ≡ 1 mod 4). -/
def decodeQuads : List Nat → List Nat
  | a :: b :: c :: d :: rest =>
      (a * 4 + b / 16) :: ((b % 16) * 16 + c / 4) :: ((c % 4) * 64 + d) :: decodeQuads rest
  | [a, b] => [a * 4 + b / 16]
  | [a, b, c] => [a * 4 + b / 16, (b % 16) * 16 + c / 4]
  | _ => []

/-- Remove up to two trailing `=` characters, but only when the input length
is divisible by 4 (forgiving-base64 decode, step 2). -/
def stripPad (cs : List Char) : List Char :=
  if cs.length % 4 = 0 then
    match cs.reverse with
    | '=' :: '=' :: rest => rest.reverse
    | '=' :: rest => rest.reverse
    | _ => cs
  else cs

/-- The platform primitive `atob`: forgiving-base64 decode (WHATWG HTML
§8.3 / Infra §4.5), producing the bytes of the decoded binary string. -/
def atob (s : String) : Except DecodeError (List Nat) :=
  let cs := s.data.filter (fun c => !(isAsciiWhitespace c))
  let cs2 := stripPad cs
  if cs2.length % 4 = 1 then .error .invalidInput
  else
    match sextetsOf? cs2 with
    | none => .error .invalidInput
    | some sx => .ok (decodeQuads sx)

/-- The repository's `decode` (src/unnamed/part_001, lines 8-16): calls
`atob` and copies the code units of the binary string (values 0..255, per
`charCodeAt`) into a fresh `Uint8Array` unchanged. -/
def decode (base64 : String) : Except DecodeError (List Nat) :=
  atob base64

/-- Character of a sextet in the standard base64 alphabet (RFC 4648 §4);
used only to state what the "corresponding byte sequence" of a valid base64
string is. -/
def sextetChar (n : Nat) : Char :=
  Char.ofNat
    (if n < 26 then 65 + n
     else if n < 52 then 97 + (n - 26)
     else if n < 62 then 48 + (n - 52)
     else if n = 62 then 43
     else 47)

/-- Sextets of a byte sequence (RFC 4648 §4): every 3 bytes yield 4 sextets,
a final group of 1 or 2 bytes yields 2 or 3 sextets (zero-filled). -/
def encodeGroups : List Nat → List Nat
  | x :: y :: z :: rest =>
      (x / 4) :: ((x % 4) * 16 + y / 16) :: ((y % 16) * 4 + z / 64) :: (z % 64) :: encodeGroups rest
  | [x, y] => [x / 4, (x % 4) * 16 + y / 16, (y % 16) * 4]
  | [x] => [x / 4, (x % 4) * 16]
  | [] => []

/-- Reference base64 encoder (RFC 4648 §4, with padding): the string whose
decoding is the given byte sequence. -/
def base64Encode (bs : List Nat) : String :=
  String.mk ((encodeGroups bs).map sextetChar ++
    List.replicate ((4 - (encodeGroups bs).length % 4) % 4) '=')

/-- Value of two consecutive bytes read as one signed 16-bit little-endian
integer (the view `new Int16Array(data.buffer)` on a little-endian host). -/
def int16OfBytes (lo hi : Nat) : Int :=
  if lo + 256 * hi < 32768 then ((lo + 256 * hi : Nat) : Int)
  else ((lo + 256 * hi : Nat) : Int) - 65536

/-- The contents of `new Int16Array(data.buffer)`: consecutive byte pairs as
signed 16-bit little-endian integers.  The dangling-byte case (`_`) is
unreachable from `decodeAudioData`, which models the `RangeError` thrown by
the `Int16Array` constructor on an odd byte length before this point. -/
def toInt16Pairs : List Nat → List Int
  | lo :: hi :: rest => int16OfBytes lo hi :: toInt16Pairs rest
  | _ => []

/-- The normalisation `dataInt16[i * numChannels + channel] / 32768.0`
applied to each sample (src/unnamed/part_001, line 41), exact in `ℚ`. -/
def normalizeSample (s : Int) : ℚ :=
  (s : ℚ) / 32768

/-- The repository's `decodeAudioData` (src/unnamed/part_001, lines 26-45),
restricted to its observable result: the per-channel sample data of the
`AudioBuffer` it resolves with, or `none` when a platform primitive throws:
the `Int16Array` view on an odd-length buffer (`RangeError`), or
`ctx.createBuffer` on a channel count outside its nominal range [1, 32]
(32 being the implementation maximum, required to be at least 32 and
exactly 32 on the mainstream engines) or on a zero (truncated) frame count
(`NotSupportedError`).  `frameCount` is `ToUint32` of the JS quotient, i.e.
the Nat quotient; the loop's extra fractional iteration only performs an
out-of-bounds typed-array store, which is a no-op. -/
def decodeAudioData (data : List Nat) (numChannels : Nat) : Option (List (List ℚ)) :=
  if data.length % 2 ≠ 0 then none
  else
    let dataInt16 := toInt16Pairs data
    let frameCount := dataInt16.length / numChannels
    if numChannels = 0 ∨ 32 < numChannels ∨ frameCount = 0 then none
    else
      some ((List.range numChannels).map fun channel =>
        (List.range frameCount).map fun i =>
          normalizeSample (dataInt16.getD (i * numChannels + channel) 0))

/-- Host capability seen by `playAudio`: whether `window.AudioContext` (or
the webkit fallback) exists. -/
structure AudioEnv where
  hasAudioContext : Bool

/-- The pipeline steps of a `playAudio` invocation, in the order the source
performs them. -/
inductive PlayStep where
  | contextCreated
  | byteDecode
  | pcmInterpretation
  | normalization
  | deviceConnection
  | playbackStart
deriving DecidableEq, Repr

/-- Failures of `playAudio`: the spec's `UnsupportedEnvironmentError`
(thrown before anything else when the host has no `AudioContext`), a
propagated base64 `DecodeError`, and an error thrown by a platform primitive
while building the audio buffer. -/
inductive AudioError where
  | unsupportedEnvironment
  | decodeFailed (e : DecodeError)
  | bufferConstruction
deriving DecidableEq, Repr

/-- The canonical step order of a complete playback invocation. -/
def canonicalPlaySteps : List PlayStep :=
  [.contextCreated, .byteDecode, .pcmInterpretation, .normalization,
   .deviceConnection, .playbackStart]

/-- The repository's `playAudio` (src/unnamed/part_001, lines 52-71),
embedded together with the ordered trace of the steps it completed before
returning.  The structure mirrors the source line by line: the
`AudioContext` support check and context construction, then `decode`, then
`decodeAudioData` (whose internal phases — `Int16Array` interpretation, then
the normalisation loops — are the middle trace entries), then
`source.connect(...)` and `source.start()`.  The operation resolves at
`playbackStart`; no completion of the audible output is awaited. -/
def playAudio (env : AudioEnv) (base64Audio : String) : List PlayStep × Except AudioError Unit :=
  if env.hasAudioContext = false then ([], .error .unsupportedEnvironment)
  else
    match decode base64Audio with
    | .error e => ([.contextCreated], .error (.decodeFailed e))
    | .ok decodedBytes =>
      if decodedBytes.length % 2 ≠ 0 then
        ([.contextCreated, .byteDecode], .error .bufferConstruction)
      else
        let dataInt16 := toInt16Pairs decodedBytes
        let frameCount := dataInt16.length / 1
        if frameCount = 0 then
          ([.contextCreated, .byteDecode, .pcmInterpretation], .error .bufferConstruction)
        else
          (canonicalPlaySteps, .ok ())

/-- Little-endian bytes of a 16-bit store (`DataView.setUint16(_, v, true)`;
the value is converted with `ToUint16`, i.e. reduced mod 2^16 — the
reduction is built into the byte extraction). -/
def toLE16 (v : Nat) : List Nat :=
  [v % 256, v / 256 % 256]

/-- Little-endian bytes of a 32-bit store (`DataView.setUint32(_, v, true)`;
the value is converted with `ToUint32`, i.e. reduced mod 2^32 — the
reduction is built into the byte extraction). -/
def toLE32 (v : Nat) : List Nat :=
  [v % 256, v / 256 % 256, v / 65536 % 256, v / 16777216 % 256]

/-- The byte values written by the helper `writeString` (src/unnamed/
part_001, lines 80-84): the code units of the string. -/
def writeStringData (s : String) : List Nat :=
  s.data.map Char.toNat

/-- Overwrite the bytes of `buf` at offset `off` with `bs` (the effect of the
consecutive in-bounds `DataView` stores of the WAV encoder, and of
`wavBuffer.set(pcmData, 44)`). -/
def setBytes (buf : List Nat) (off : Nat) (bs : List Nat) : List Nat :=
  buf.take off ++ bs ++ buf.drop (off + bs.length)

/-- The byte contents of the blob built by `createWavBlob` from the decoded
PCM bytes (src/unnamed/part_001, lines 98-127): a zero-initialised buffer of
44 + dataSize bytes, written by the source's thirteen header stores and the
final PCM copy, in source order. -/
def createWavBytesFromPcm (pcmData : List Nat) : List Nat :=
  let dataSize := pcmData.length
  let buffer := List.replicate (44 + dataSize) 0
  let b1 := setBytes buffer 0 (writeStringData "RIFF")
  let b2 := setBytes b1 4 (toLE32 (36 + dataSize))
  let b3 := setBytes b2 8 (writeStringData "WAVE")
  let b4 := setBytes b3 12 (writeStringData "fmt ")
  let b5 := setBytes b4 16 (toLE32 16)
  let b6 := setBytes b5 20 (toLE16 1)
  let b7 := setBytes b6 22 (toLE16 1)
  let b8 := setBytes b7 24 (toLE32 24000)
  let byteRate := 24000 * 1 * (16 / 8)
  let b9 := setBytes b8 28 (toLE32 byteRate)
  let blockAlign := 1 * (16 / 8)
  let b10 := setBytes b9 32 (toLE16 blockAlign)
  let b11 := setBytes b10 34 (toLE16 16)
  let b12 := setBytes b11 36 (writeStringData "data")
  let b13 := setBytes b12 40 (toLE32 dataSize)
  setBytes b13 44 pcmData

/-- The repository's `createWavBlob` (src/unnamed/part_001, lines 91-128):
decodes the base64 input itself, then builds the WAV byte blob; a decode
failure propagates (the function body throws before constructing anything). -/
def createWavBlob (base64Audio : String) : Except DecodeError (List Nat) :=
  (decode base64Audio).map createWavBytesFromPcm

/-- The 44-byte header as one byte list; `createWav_eq` proves that the
write sequence of `createWavBytesFromPcm` produces exactly this header
followed by the PCM bytes. -/
def wavHeaderBytes (dataSize : Nat) : List Nat :=
  writeStringData "RIFF" ++ toLE32 (36 + dataSize) ++ writeStringData "WAVE" ++
  writeStringData "fmt " ++ toLE32 16 ++ toLE16 1 ++ toLE16 1 ++ toLE32 24000 ++
  toLE32 (24000 * 1 * (16 / 8)) ++ toLE16 (1 * (16 / 8)) ++ toLE16 16 ++
  writeStringData "data" ++ toLE32 dataSize

/-- The bytes `off`, `off+1`, ..., `off+len-1` of a byte list. -/
def byteSlice (l : List Nat) (off len : Nat) : List Nat :=
  (l.drop off).take len

/-- A write at offset 0 into a buffer. -/
theorem setBytes_zero (b bs : List Nat) :
    setBytes b 0 bs = bs ++ b.drop bs.length := by
  simp [setBytes]

/-- A write starting exactly at the end of an already-written prefix `a`. -/
theorem setBytes_cont (a b bs : List Nat) :
    setBytes (a ++ b) a.length bs = (a ++ bs) ++ b.drop bs.length := by
  unfold setBytes
  rw [List.take_left, List.drop_append]

/-- A write starting at the end of the written prefix `A` of a buffer whose
remainder is still the `k` zero bytes of the initial allocation: it extends
the prefix and leaves `m = k - bs.length` zeros. -/
theorem setBytes_step (A bs : List Nat) (k m : Nat) (hk : bs.length + m = k) :
    setBytes (A ++ List.replicate k 0) A.length bs = (A ++ bs) ++ List.replicate m 0 := by
  rw [setBytes_cont, List.drop_replicate]
  rw [show k - bs.length = m by omega]

/-- The thirteen header stores and the final PCM copy of
`createWavBytesFromPcm` produce exactly the 44-byte header followed by the
PCM bytes. -/
theorem createWav_eq (pcm : List Nat) :
    createWavBytesFromPcm pcm = wavHeaderBytes pcm.length ++ pcm := by
  have e1 : setBytes (List.replicate (44 + pcm.length) 0) 0 (writeStringData "RIFF")
      = writeStringData "RIFF" ++ List.replicate (40 + pcm.length) 0 := by
    rw [setBytes_zero, List.drop_replicate]
    rw [show 44 + pcm.length - (writeStringData "RIFF").length = 40 + pcm.length by
      simp [writeStringData]; omega]
  have e2 : setBytes (writeStringData "RIFF" ++ List.replicate (40 + pcm.length) 0) 4
        (toLE32 (36 + pcm.length))
      = (writeStringData "RIFF" ++ toLE32 (36 + pcm.length)) ++
        List.replicate (36 + pcm.length) 0 :=
    setBytes_step _ _ _ _ (by simp [toLE32]; omega)
  have e3 : setBytes
        (writeStringData "RIFF" ++ toLE32 (36 + pcm.length) ++
          List.replicate (36 + pcm.length) 0) 8 (writeStringData "WAVE")
      = (writeStringData "RIFF" ++ toLE32 (36 + pcm.length) ++ writeStringData "WAVE") ++
        List.replicate (32 + pcm.length) 0 :=
    setBytes_step _ _ _ _ (show 4 + (32 + pcm.length) = 36 + pcm.length by omega)
  have e4 : setBytes
        (writeStringData "RIFF" ++ toLE32 (36 + pcm.length) ++ writeStringData "WAVE" ++
          List.replicate (32 + pcm.length) 0) 12 (writeStringData "fmt ")
      = (writeStringData "RIFF" ++ toLE32 (36 + pcm.length) ++ writeStringData "WAVE" ++
          writeStringData "fmt ") ++ List.replicate (28 + pcm.length) 0 :=
    setBytes_step _ _ _ _ (show 4 + (28 + pcm.length) = 32 + pcm.length by omega)
  have e5 : setBytes
        (writeStringData "RIFF" ++ toLE32 (36 + pcm.length) ++ writeStringData "WAVE" ++
          writeStringData "fmt " ++ List.replicate (28 + pcm.length) 0) 16 (toLE32 16)
      = (writeStringData "RIFF" ++ toLE32 (36 + pcm.length) ++ writeStringData "WAVE" ++
          writeStringData "fmt " ++ toLE32 16) ++ List.replicate (24 + pcm.length) 0 :=
    setBytes_step _ _ _ _ (show 4 + (24 + pcm.length) = 28 + pcm.length by omega)
  have e6 : setBytes
        (writeStringData "RIFF" ++ toLE32 (36 + pcm.length) ++ writeStringData "WAVE" ++
          writeStringData "fmt " ++ toLE32 16 ++ List.replicate (24 + pcm.length) 0)
        20 (toLE16 1)
      = (writeStringData "RIFF" ++ toLE32 (36 + pcm.length) ++ writeStringData "WAVE" ++
          writeStringData "fmt " ++ toLE32 16 ++ toLE16 1) ++
        List.replicate (22 + pcm.length) 0 :=
    setBytes_step _ _ _ _ (show 2 + (22 + pcm.length) = 24 + pcm.length by omega)
  have e7 : setBytes
        (writeStringData "RIFF" ++ toLE32 (36 + pcm.length) ++ writeStringData "WAVE" ++
          writeStringData "fmt " ++ toLE32 16 ++ toLE16 1 ++
          List.replicate (22 + pcm.length) 0) 22 (toLE16 1)
      = (writeStringData "RIFF" ++ toLE32 (36 + pcm.length) ++ writeStringData "WAVE" ++
          writeStringData "fmt " ++ toLE32 16 ++ toLE16 1 ++ toLE16 1) ++
        List.replicate (20 + pcm.length) 0 :=
    setBytes_step _ _ _ _ (show 2 + (20 + pcm.length) = 22 + pcm.length by omega)
  have e8 : setBytes
        (writeStringData "RIFF" ++ toLE32 (36 + pcm.length) ++ writeStringData "WAVE" ++
          writeStringData "fmt " ++ toLE32 16 ++ toLE16 1 ++ toLE16 1 ++
          List.replicate (20 + pcm.length) 0) 24 (toLE32 24000)
      = (writeStringData "RIFF" ++ toLE32 (36 + pcm.length) ++ writeStringData "WAVE" ++
          writeStringData "fmt " ++ toLE32 16 ++ toLE16 1 ++ toLE16 1 ++ toLE32 24000) ++
        List.replicate (16 + pcm.length) 0 :=
    setBytes_step _ _ _ _ (show 4 + (16 + pcm.length) = 20 + pcm.length by omega)
  have e9 : setBytes
        (writeStringData "RIFF" ++ toLE32 (36 + pcm.length) ++ writeStringData "WAVE" ++
          writeStringData "fmt " ++ toLE32 16 ++ toLE16 1 ++ toLE16 1 ++ toLE32 24000 ++
          List.replicate (16 + pcm.length) 0) 28 (toLE32 (24000 * 1 * (16 / 8)))
      = (writeStringData "RIFF" ++ toLE32 (36 + pcm.length) ++ writeStringData "WAVE" ++
          writeStringData "fmt " ++ toLE32 16 ++ toLE16 1 ++ toLE16 1 ++ toLE32 24000 ++
          toLE32 (24000 * 1 * (16 / 8))) ++ List.replicate (12 + pcm.length) 0 :=
    setBytes_step _ _ _ _ (show 4 + (12 + pcm.length) = 16 + pcm.length by omega)
  have e10 : setBytes
        (writeStringData "RIFF" ++ toLE32 (36 + pcm.length) ++ writeStringData "WAVE" ++
          writeStringData "fmt " ++ toLE32 16 ++ toLE16 1 ++ toLE16 1 ++ toLE32 24000 ++
          toLE32 (24000 * 1 * (16 / 8)) ++ List.replicate (12 + pcm.length) 0)
        32 (toLE16 (1 * (16 / 8)))
      = (writeStringData "RIFF" ++ toLE32 (36 + pcm.length) ++ writeStringData "WAVE" ++
          writeStringData "fmt " ++ toLE32 16 ++ toLE16 1 ++ toLE16 1 ++ toLE32 24000 ++
          toLE32 (24000 * 1 * (16 / 8)) ++ toLE16 (1 * (16 / 8))) ++
        List.replicate (10 + pcm.length) 0 :=
    setBytes_step _ _ _ _ (show 2 + (10 + pcm.length) = 12 + pcm.length by omega)
  have e11 : setBytes
        (writeStringData "RIFF" ++ toLE32 (36 + pcm.length) ++ writeStringData "WAVE" ++
          writeStringData "fmt " ++ toLE32 16 ++ toLE16 1 ++ toLE16 1 ++ toLE32 24000 ++
          toLE32 (24000 * 1 * (16 / 8)) ++ toLE16 (1 * (16 / 8)) ++
          List.replicate (10 + pcm.length) 0) 34 (toLE16 16)
      = (writeStringData "RIFF" ++ toLE32 (36 + pcm.length) ++ writeStringData "WAVE" ++
          writeStringData "fmt " ++ toLE32 16 ++ toLE16 1 ++ toLE16 1 ++ toLE32 24000 ++
          toLE32 (24000 * 1 * (16 / 8)) ++ toLE16 (1 * (16 / 8)) ++ toLE16 16) ++
        List.replicate (8 + pcm.length) 0 :=
    setBytes_step _ _ _ _ (show 2 + (8 + pcm.length) = 10 + pcm.length by omega)
  have e12 : setBytes
        (writeStringData "RIFF" ++ toLE32 (36 + pcm.length) ++ writeStringData "WAVE" ++
          writeStringData "fmt " ++ toLE32 16 ++ toLE16 1 ++ toLE16 1 ++ toLE32 24000 ++
          toLE32 (24000 * 1 * (16 / 8)) ++ toLE16 (1 * (16 / 8)) ++ toLE16 16 ++
          List.replicate (8 + pcm.length) 0) 36 (writeStringData "data")
      = (writeStringData "RIFF" ++ toLE32 (36 + pcm.length) ++ writeStringData "WAVE" ++
          writeStringData "fmt " ++ toLE32 16 ++ toLE16 1 ++ toLE16 1 ++ toLE32 24000 ++
          toLE32 (24000 * 1 * (16 / 8)) ++ toLE16 (1 * (16 / 8)) ++ toLE16 16 ++
          writeStringData "data") ++ List.replicate (4 + pcm.length) 0 :=
    setBytes_step _ _ _ _ (show 4 + (4 + pcm.length) = 8 + pcm.length by omega)
  have e13 : setBytes
        (writeStringData "RIFF" ++ toLE32 (36 + pcm.length) ++ writeStringData "WAVE" ++
          writeStringData "fmt " ++ toLE32 16 ++ toLE16 1 ++ toLE16 1 ++ toLE32 24000 ++
          toLE32 (24000 * 1 * (16 / 8)) ++ toLE16 (1 * (16 / 8)) ++ toLE16 16 ++
          writeStringData "data" ++ List.replicate (4 + pcm.length) 0)
        40 (toLE32 pcm.length)
      = wavHeaderBytes pcm.length ++ List.replicate pcm.length 0 :=
    setBytes_step _ _ _ _ (show 4 + pcm.length = 4 + pcm.length by omega)
  have e14 : setBytes (wavHeaderBytes pcm.length ++ List.replicate pcm.length 0)
        44 pcm
      = (wavHeaderBytes pcm.length ++ pcm) ++ List.replicate 0 0 :=
    setBytes_step _ _ _ _ (by omega)
  simp only [createWavBytesFromPcm]
  rw [e1, e2, e3, e4, e5, e6, e7, e8, e9, e10, e11, e12, e13, e14]
  simp

/-- The header/payload layout required of a WAV blob for PCM payload `B`
(the field list of the claim and of spec §4.3). -/
def WavLayoutOk (B w : List Nat) : Prop :=
  w.length = 44 + B.length ∧
  w.drop 44 = B ∧
  byteSlice w 0 4 = [82, 73, 70, 70] ∧
  byteSlice w 4 4 = toLE32 (36 + B.length) ∧
  byteSlice w 8 4 = [87, 65, 86, 69] ∧
  byteSlice w 12 4 = [102, 109, 116, 32] ∧
  byteSlice w 16 4 = toLE32 16 ∧
  byteSlice w 20 2 = toLE16 1 ∧
  byteSlice w 22 2 = toLE16 1 ∧
  byteSlice w 24 4 = toLE32 24000 ∧
  byteSlice w 28 4 = toLE32 48000 ∧
  byteSlice w 32 2 = toLE16 2 ∧
  byteSlice w 34 2 = toLE16 16 ∧
  byteSlice w 36 4 = [100, 97, 116, 97] ∧
  byteSlice w 40 4 = toLE32 B.length

/-- The 44-byte header has length 44. -/
theorem wavHeaderBytes_length (n : Nat) : (wavHeaderBytes n).length = 44 := rfl

set_option maxHeartbeats 1600000 in
/-- Claim C1: for every byte sequence `B` obtained by decoding the base64
input, the WAV encoder produces a byte sequence of length 44 + len(B) whose
bytes 44.. equal `B` exactly and whose 44-byte header has ASCII "RIFF" at
0-3, uint32-LE 36+len(B) at 4, ASCII "WAVE" at 8-11, ASCII "fmt " at 12-15,
uint32-LE 16 at 16, uint16-LE 1 at 20, uint16-LE 1 at 22, uint32-LE 24000
at 24, uint32-LE 48000 at 28, uint16-LE 2 at 32, uint16-LE 16 at 34, ASCII
"data" at 36-39 and uint32-LE len(B) at 40. -/
theorem createWavBlob_layout (s : String) (B : List Nat) (h : decode s = .ok B) :
    ∃ w, createWavBlob s = .ok w ∧ WavLayoutOk B w := by
  refine ⟨createWavBytesFromPcm B, by simp [createWavBlob, h, Except.map], ?_⟩
  rw [createWav_eq]
  refine ⟨?_, rfl, rfl, rfl, rfl, rfl, rfl, rfl, rfl, rfl, rfl, rfl, rfl, rfl, rfl⟩
  show (wavHeaderBytes B.length ++ B).length = 44 + B.length
  rw [List.length_append, wavHeaderBytes_length]

/-- Claim C1 witness: instantiated at the base64 input "AAA=", which decodes
to the two-byte PCM payload [0, 0]. -/
theorem createWavBlob_layout_witness :
    decode "AAA=" = Except.ok [0, 0] ∧
    ∃ w, createWavBlob "AAA=" = Except.ok w ∧ WavLayoutOk [0, 0] w :=
  ⟨by decide, createWavBlob_layout "AAA=" [0, 0] (by decide)⟩

/-- Claim C2 counterexample: the empty byte sequence (even length, sample
count 0) with channelCount 2 is covered by the claim's quantifier, and the
claim asserts the adapter allocates two channel arrays of length
frameCount = 0; the code instead fails (`ctx.createBuffer` throws
`NotSupportedError` for a zero frame count), producing no buffer at all. -/
theorem decodeAudioData_zero_frames : decodeAudioData [1, 0] 2 = none := by decide

/-- Claim C2 (amended): for every byte sequence of even length and every
channelCount with 1 ≤ channelCount ≤ 32 (the platform buffer constructor's
nominal channel range) and channelCount ≤ sampleCount (so that the
truncated frameCount is at least 1), the adapter succeeds and produces
channelCount sample arrays of length frameCount = sampleCount / channelCount
(integer division, remainder samples dropped), with
output[c][i] = interleavedSample[i * channelCount + c] / 32768.0; when
frameCount is 0 (for example on an empty input) or channelCount is outside
[1, 32], the adapter instead fails. -/
theorem decodeAudioData_deinterleave (data : List Nat) (nc : Nat)
    (heven : data.length % 2 = 0) (h1 : 1 ≤ nc) (h32 : nc ≤ 32)
    (hn : nc ≤ (toInt16Pairs data).length) :
    ∃ out, decodeAudioData data nc = some out ∧
      out.length = nc ∧
      (∀ c (hc : c < out.length),
        (out.get ⟨c, hc⟩).length = (toInt16Pairs data).length / nc) ∧
      (∀ c (hc : c < out.length) i (hi : i < (out.get ⟨c, hc⟩).length),
        (out.get ⟨c, hc⟩).get ⟨i, hi⟩ =
          normalizeSample ((toInt16Pairs data).getD (i * nc + c) 0)) := by
  have hfc : 1 ≤ (toInt16Pairs data).length / nc := (Nat.one_le_div_iff (by omega)).2 hn
  refine ⟨(List.range nc).map (fun channel =>
      (List.range ((toInt16Pairs data).length / nc)).map
        (fun i => normalizeSample ((toInt16Pairs data).getD (i * nc + channel) 0))),
    ?_, by simp, ?_, ?_⟩
  · simp only [decodeAudioData]
    rw [if_neg (by omega), if_neg (by rintro (h | h | h) <;> omega)]
  · intro c hc
    simp
  · intro c hc i hi
    simp

/-- Claim C2 witness: the stereo de-interleaving instance of the claim — the
interleaved int16 samples [1, 2, 3, 4] (bytes [1,0, 2,0, 3,0, 4,0]) with
channelCount 2 give channel 0 = [1, 3]/32768 and channel 1 = [2, 4]/32768.
-/
theorem decodeAudioData_deinterleave_witness :
    (decodeAudioData [1, 0, 2, 0, 3, 0, 4, 0] 2 =
      some [[normalizeSample 1, normalizeSample 3],
            [normalizeSample 2, normalizeSample 4]]) ∧
    (∃ out, decodeAudioData [1, 0, 2, 0, 3, 0, 4, 0] 2 = some out ∧
      out.length = 2 ∧
      (∀ c (hc : c < out.length),
        (out.get ⟨c, hc⟩).length = (toInt16Pairs [1, 0, 2, 0, 3, 0, 4, 0]).length / 2) ∧
      (∀ c (hc : c < out.length) i (hi : i < (out.get ⟨c, hc⟩).length),
        (out.get ⟨c, hc⟩).get ⟨i, hi⟩ =
          normalizeSample ((toInt16Pairs [1, 0, 2, 0, 3, 0, 4, 0]).getD (i * 2 + c) 0))) :=
  ⟨by simp [decodeAudioData, toInt16Pairs, int16OfBytes, List.range_succ],
   decodeAudioData_deinterleave [1, 0, 2, 0, 3, 0, 4, 0] 2 (by decide) (by decide) (by decide)
     (by decide)⟩

/-- Claim C3 counterexample: on the odd-length mono input [7, 7, 7] the
claim asserts the adapter does not fail and produces a 1-frame buffer from
the even-aligned two-byte prefix; the code instead fails — the constructor
`new Int16Array(data.buffer)` throws a `RangeError` because 3 is not a
multiple of 2, so no buffer is produced. -/
theorem decodeAudioData_odd_input : decodeAudioData [7, 7, 7] 1 = none := by decide

/-- Claim C3 (amended): for every mono byte sequence of odd length the PCM
playback adapter fails (the `Int16Array` view construction throws a
`RangeError` on the odd-length buffer); the even-aligned prefix is not used
and no buffer is produced. -/
theorem decodeAudioData_odd_fails (data : List Nat) (hodd : data.length % 2 = 1) :
    decodeAudioData data 1 = none := by
  simp [decodeAudioData, hodd]

/-- Claim C3 witness: the single dangling byte [0]. -/
theorem decodeAudioData_odd_fails_witness :
    ([0] : List Nat).length % 2 = 1 ∧ decodeAudioData [0] 1 = none :=
  ⟨by decide, decodeAudioData_odd_fails [0] (by decide)⟩

/-- Claim C4: the normalization maps the int16 extreme -32768 (bytes
[0x00, 0x80] little-endian) to exactly -1.0 and 32767 (bytes [0xFF, 0x7F])
to exactly 0.999969482421875 — strictly below 1, so the positive extreme is
not clipped to +1.0 — and every int16 sample value maps into [-1.0, 1.0].
(The JS float64 division of an int16 by 32768.0, and its storage in the
float32 channel array, are both exact, so the rational values are the
floating-point ones.) -/
theorem normalization_boundary :
    decodeAudioData [0, 128] 1 = some [[(-1 : ℚ)]] ∧
    decodeAudioData [255, 127] 1 = some [[(0.999969482421875 : ℚ)]] ∧
    normalizeSample 32767 < 1 ∧
    ∀ s : Int, -32768 ≤ s → s ≤ 32767 →
      -1 ≤ normalizeSample s ∧ normalizeSample s ≤ 1 := by
  refine ⟨?_, ?_, ?_, ?_⟩
  · simp [decodeAudioData, toInt16Pairs, int16OfBytes, normalizeSample, List.range_succ]
  · simp [decodeAudioData, toInt16Pairs, int16OfBytes, normalizeSample, List.range_succ]
    norm_num
  · norm_num [normalizeSample]
  · intro s hlo hhi
    have h1 : (-32768 : ℚ) ≤ (s : ℚ) := by exact_mod_cast hlo
    have h2 : (s : ℚ) ≤ 32767 := by exact_mod_cast hhi
    constructor
    · rw [normalizeSample, le_div_iff₀ (by norm_num)]
      linarith
    · rw [normalizeSample, div_le_one (by norm_num)]
      linarith

/-- Claim C4 witness: the range bound applied to the int16 sample -12345. -/
theorem normalization_boundary_witness :
    (-32768 ≤ (-12345 : Int)) ∧ ((-12345 : Int) ≤ 32767) ∧
    (-1 ≤ normalizeSample (-12345) ∧ normalizeSample (-12345) ≤ 1) :=
  ⟨by decide, by decide, normalization_boundary.2.2.2 (-12345) (by decide) (by decide)⟩

set_option maxRecDepth 4000 in
/-- Claim C5 counterexample: for the empty PCM byte sequence the claim
asserts the playback adapter produces a frameCount-0 buffer without raising
any error; the code instead fails — `ctx.createBuffer(1, 0, 24000)` throws
`NotSupportedError` (frame count outside its nominal range), so `playAudio`
on the empty payload rejects after the PCM-interpretation step. -/
theorem playback_empty_fails :
    decodeAudioData [] 1 = none ∧
    (playAudio ⟨true⟩ "").1 =
      [PlayStep.contextCreated, PlayStep.byteDecode, PlayStep.pcmInterpretation] ∧
    (playAudio ⟨true⟩ "").2 = Except.error AudioError.bufferConstruction := by
  refine ⟨by decide, rfl, rfl⟩

/-- Claim C5 (amended): for the empty PCM byte sequence the WAV encoder
produces exactly a 44-byte output with ChunkSize = 36 and Subchunk2Size = 0;
the playback adapter, however, does not produce a frameCount-0 buffer — it
fails, because the platform's buffer constructor rejects a zero frame
count. -/
theorem empty_input_behavior :
    (∃ w, createWavBlob "" = Except.ok w ∧ w.length = 44 ∧
      byteSlice w 4 4 = toLE32 36 ∧ byteSlice w 40 4 = toLE32 0) ∧
    decodeAudioData [] 1 = none := by
  refine ⟨⟨createWavBytesFromPcm [], rfl, ?_, ?_, ?_⟩, by decide⟩ <;> rw [createWav_eq] <;>
    exact rfl

/-- Claim C7: when the host has no audio output capability (`AudioContext`
absent), `playAudio` fails with the unsupported-environment error, and its
step trace is empty: no byte decoding and no buffer construction happened
before the failure. -/
theorem playAudio_unsupportedEnv (env : AudioEnv) (s : String)
    (h : env.hasAudioContext = false) :
    playAudio env s = ([], .error .unsupportedEnvironment) := by
  simp [playAudio, h]

/-- Claim C7 witness: a host without `AudioContext`, on a well-formed
payload. -/
theorem playAudio_unsupportedEnv_witness :
    (AudioEnv.mk false).hasAudioContext = false ∧
    playAudio ⟨false⟩ "QUJD" = ([], .error .unsupportedEnvironment) :=
  ⟨rfl, playAudio_unsupportedEnv ⟨false⟩ "QUJD" rfl⟩

/-- Claim C9: within every single invocation, the trace of completed steps
is a prefix of the canonical order (context creation, byte decode, PCM
interpretation, normalization, device connection, playback start) — so no
step is reordered relative to another — and an invocation that resolves
successfully has performed exactly the canonical sequence, ending at
playback start: the operation resolves once playback has been initiated
(no later event is awaited). -/
theorem playAudio_step_order (env : AudioEnv) (s : String) :
    (∃ n, (playAudio env s).1 = canonicalPlaySteps.take n) ∧
    ((playAudio env s).2 = Except.ok () → (playAudio env s).1 = canonicalPlaySteps) := by
  unfold playAudio
  split
  · exact ⟨⟨0, rfl⟩, by intro h; cases h⟩
  · split
    · exact ⟨⟨1, rfl⟩, by intro h; cases h⟩
    · split
      · exact ⟨⟨2, rfl⟩, by intro h; cases h⟩
      · dsimp only
        split
        · exact ⟨⟨3, rfl⟩, by intro h; cases h⟩
        · exact ⟨⟨6, rfl⟩, fun _ => rfl⟩

/-- Claim C9 witness: the complete successful trace on the payload "AAA=". -/
theorem playAudio_step_order_witness :
    (playAudio ⟨true⟩ "AAA=").2 = Except.ok () ∧
    (playAudio ⟨true⟩ "AAA=").1 = canonicalPlaySteps :=
  ⟨rfl, (playAudio_step_order ⟨true⟩ "AAA=").2 rfl⟩

/-- Claim C8: the WAV encoder is a deterministic pure function of its
input: two invocations on the same input yield byte-identical blobs. -/
theorem createWavBlob_deterministic (s : String) (w1 w2 : List Nat)
    (h1 : createWavBlob s = .ok w1) (h2 : createWavBlob s = .ok w2) : w1 = w2 := by
  rw [h1] at h2
  exact (Except.ok.injEq _ _).mp h2

/-- Claim C8 witness: two evaluations on the payload "AAA=". -/
theorem createWavBlob_deterministic_witness :
    createWavBlob "AAA=" = Except.ok (createWavBytesFromPcm [0, 0]) ∧
    createWavBytesFromPcm [0, 0] = createWavBytesFromPcm [0, 0] :=
  ⟨rfl, createWavBlob_deterministic "AAA=" _ _ rfl rfl⟩

/-- Claim C10: `createWavBlob` takes the base64 string itself and decodes
internally; on every malformed base64 input it fails with the propagated
platform decode error and produces no blob, mirroring the playback path's
failure on the same input. -/
theorem createWavBlob_decode_propagates (s : String) (e : DecodeError)
    (h : decode s = .error e) :
    createWavBlob s = .error e ∧
    ∀ env : AudioEnv, env.hasAudioContext = true →
      (playAudio env s).2 = .error (.decodeFailed e) := by
  constructor
  · simp [createWavBlob, h, Except.map]
  · intro env henv
    simp [playAudio, henv, h]

/-- Claim C10 witness: the malformed input "%" (outside the base64
alphabet). -/
theorem createWavBlob_decode_propagates_witness :
    decode "%" = Except.error DecodeError.invalidInput ∧
    createWavBlob "%" = Except.error DecodeError.invalidInput ∧
    (playAudio ⟨true⟩ "%").2 = Except.error (AudioError.decodeFailed DecodeError.invalidInput) :=
  ⟨by decide,
   (createWavBlob_decode_propagates "%" .invalidInput (by decide)).1,
   (createWavBlob_decode_propagates "%" .invalidInput (by decide)).2 ⟨true⟩ rfl⟩

/-- Alphabet indices are sextets. -/
theorem b64Index_lt (c : Char) (v : Nat) (h : b64Index c = some v) : v < 64 := by
  simp only [b64Index] at h
  repeat' split at h
  all_goals cases h
  all_goals omega

/-- Bytes produced from sextets are in range. -/
theorem decodeQuads_lt : ∀ sx : List Nat, (∀ v ∈ sx, v < 64) → ∀ b ∈ decodeQuads sx, b < 256
  | [], _, b, hb => by simp [decodeQuads] at hb
  | [a], _, b, hb => by simp [decodeQuads] at hb
  | [a, b0], h, b, hb => by
    have ha : a < 64 := h a (by simp)
    have hb0 : b0 < 64 := h b0 (by simp)
    simp [decodeQuads] at hb
    omega
  | [a, b0, c], h, b, hb => by
    have ha : a < 64 := h a (by simp)
    have hb0 : b0 < 64 := h b0 (by simp)
    have hc : c < 64 := h c (by simp)
    simp [decodeQuads] at hb
    rcases hb with hb | hb <;> omega
  | a :: b0 :: c :: d :: rest, h, b, hb => by
    have ha : a < 64 := h a (by simp)
    have hb0 : b0 < 64 := h b0 (by simp)
    have hc : c < 64 := h c (by simp)
    have hd : d < 64 := h d (by simp)
    simp only [decodeQuads, List.mem_cons] at hb
    rcases hb with hb | hb | hb | hb
    · omega
    · omega
    · omega
    · exact decodeQuads_lt rest (fun v hv => h v (by simp [hv])) b hb

/-- Every sextet delivered by a successful alphabet lookup is below 64. -/
theorem sextetsOf?_lt : ∀ l : List Char, ∀ sx : List Nat, sextetsOf? l = some sx →
    ∀ v ∈ sx, v < 64
  | [], sx, h, v, hv => by
    simp [sextetsOf?] at h
    subst h
    cases hv
  | c :: cs, sx, h, v, hv => by
    unfold sextetsOf? at h
    cases hidx : b64Index c with
    | none => rw [hidx] at h; cases h
    | some w =>
      rw [hidx] at h
      cases hrec : sextetsOf? cs with
      | none => rw [hrec] at h; cases h
      | some ws =>
        rw [hrec] at h
        cases h
        rcases List.mem_cons.mp hv with rfl | hmem
        · exact b64Index_lt c v hidx
        · exact sextetsOf?_lt cs ws hrec v hmem

/-- Claim C6, range part: a successful decode yields only byte values. -/
theorem decode_ok_range (s : String) (bs : List Nat) (h : decode s = .ok bs) :
    ∀ b ∈ bs, b < 256 := by
  simp only [decode, atob] at h
  split at h
  · cases h
  · cases hsx : sextetsOf? (stripPad (s.data.filter fun c => !(isAsciiWhitespace c))) with
    | none => rw [hsx] at h; cases h
    | some sx =>
      rw [hsx] at h
      cases h
      exact decodeQuads_lt sx (sextetsOf?_lt _ sx hsx)

/-- The alphabet lookup inverts the alphabet character map. -/
theorem b64Index_sextetChar : ∀ n, n < 64 → b64Index (sextetChar n) = some n := by decide

/-- Alphabet characters are not ASCII whitespace. -/
theorem sextetChar_not_ws : ∀ n, n < 64 → isAsciiWhitespace (sextetChar n) = false := by decide

/-- Alphabet characters are not the padding character. -/
theorem sextetChar_ne_pad : ∀ n, n < 64 → sextetChar n ≠ '=' := by decide

/-- Sextets of in-range bytes are in range. -/
theorem encodeGroups_lt : ∀ bs : List Nat, (∀ b ∈ bs, b < 256) → ∀ v ∈ encodeGroups bs, v < 64
  | [], _, v, hv => by simp [encodeGroups] at hv
  | [x], h, v, hv => by
    have hx : x < 256 := h x (by simp)
    simp [encodeGroups] at hv
    rcases hv with hv | hv <;> omega
  | [x, y], h, v, hv => by
    have hx : x < 256 := h x (by simp)
    have hy : y < 256 := h y (by simp)
    simp [encodeGroups] at hv
    rcases hv with hv | hv | hv <;> omega
  | x :: y :: z :: rest, h, v, hv => by
    have hx : x < 256 := h x (by simp)
    have hy : y < 256 := h y (by simp)
    have hz : z < 256 := h z (by simp)
    simp only [encodeGroups, List.mem_cons] at hv
    rcases hv with hv | hv | hv | hv | hv
    · omega
    · omega
    · omega
    · omega
    · exact encodeGroups_lt rest (fun b hb => h b (by simp [hb])) v hv

/-- The sextet count of a byte sequence is never ≡ 1 (mod 4). -/
theorem encodeGroups_len : ∀ bs : List Nat, (encodeGroups bs).length % 4 = 0 ∨
    (encodeGroups bs).length % 4 = 2 ∨ (encodeGroups bs).length % 4 = 3
  | [] => by simp [encodeGroups]
  | [x] => by simp [encodeGroups]
  | [x, y] => by simp [encodeGroups]
  | x :: y :: z :: rest => by
    have ih := encodeGroups_len rest
    simp only [encodeGroups, List.length_cons]
    omega

/-- Decoding the sextets of a byte sequence restores the bytes. -/
theorem decodeQuads_encodeGroups : ∀ bs : List Nat, (∀ b ∈ bs, b < 256) →
    decodeQuads (encodeGroups bs) = bs
  | [], _ => by simp [encodeGroups, decodeQuads]
  | [x], _ => by
    simp [encodeGroups, decodeQuads]
    omega
  | [x, y], h => by
    have hy : y < 256 := h y (by simp)
    simp [encodeGroups, decodeQuads]
    constructor <;> omega
  | x :: y :: z :: rest, h => by
    have hy : y < 256 := h y (by simp)
    have hz : z < 256 := h z (by simp)
    have ih := decodeQuads_encodeGroups rest (fun b hb => h b (by simp [hb]))
    simp only [encodeGroups, decodeQuads, ih, List.cons.injEq, and_true]
    refine ⟨by omega, by omega, by omega⟩

/-- The alphabet lookup of a mapped sextet list succeeds with the sextets. -/
theorem sextetsOf?_map : ∀ sx : List Nat, (∀ v ∈ sx, v < 64) →
    sextetsOf? (sx.map sextetChar) = some sx
  | [], _ => rfl
  | v :: sx, h => by
    have hv : v < 64 := h v (by simp)
    simp only [List.map_cons, sextetsOf?, b64Index_sextetChar v hv,
      sextetsOf?_map sx (fun w hw => h w (by simp [hw]))]

/-- Stripping the padding appended by the encoder restores the unpadded
alphabet characters. -/
theorem stripPad_encode (m : List Char) (hm : ∀ c ∈ m, c ≠ '=')
    (hmod : m.length % 4 = 0 ∨ m.length % 4 = 2 ∨ m.length % 4 = 3) :
    stripPad (m ++ List.replicate ((4 - m.length % 4) % 4) '=') = m := by
  rcases hmod with h0 | h2 | h3
  · rw [show (4 - m.length % 4) % 4 = 0 by omega]
    simp only [List.replicate_zero, List.append_nil]
    unfold stripPad
    rw [if_pos h0]
    split
    · next rest heq =>
      exact absurd rfl (hm '=' (List.mem_reverse.mp (by rw [heq]; simp)))
    · next rest heq =>
      exact absurd rfl (hm '=' (List.mem_reverse.mp (by rw [heq]; simp)))
    · rfl
  · rw [show (4 - m.length % 4) % 4 = 2 by omega]
    have hlen : (m ++ List.replicate 2 '=').length % 4 = 0 := by
      rw [List.length_append, List.length_replicate]; omega
    unfold stripPad
    rw [if_pos hlen]
    rw [show (m ++ List.replicate 2 '=').reverse = '=' :: '=' :: m.reverse by
      simp [List.reverse_append]]
    exact List.reverse_reverse m
  · rw [show (4 - m.length % 4) % 4 = 1 by omega]
    have hlen : (m ++ List.replicate 1 '=').length % 4 = 0 := by
      rw [List.length_append, List.length_replicate]; omega
    unfold stripPad
    rw [if_pos hlen]
    rw [show (m ++ List.replicate 1 '=').reverse = '=' :: m.reverse by
      simp [List.reverse_append]]
    cases hrev : m.reverse with
    | nil =>
      exfalso
      have hmnil : m = [] := by
        rw [← List.reverse_reverse m, hrev]
        rfl
      subst hmnil
      simp at h3
    | cons c r =>
      have hc : c ≠ '=' := hm c (List.mem_reverse.mp (by rw [hrev]; simp))
      split
      · next rest heq =>
        exfalso
        injection heq with h1 h2
        injection h2 with h3 h4
        exact hc h3
      · next rest heq =>
        injection heq with h1 h2
        rw [← h2, ← hrev, List.reverse_reverse]
      · next hne1 hne2 =>
        exact absurd rfl (hne2 (c :: r))

/-- Decoding the reference encoding of a byte sequence restores it. -/
theorem decode_base64Encode (bs : List Nat) (h : ∀ b ∈ bs, b < 256) :
    decode (base64Encode bs) = .ok bs := by
  have hsx := encodeGroups_lt bs h
  have hm : ∀ c ∈ (encodeGroups bs).map sextetChar, c ≠ '=' := by
    intro c hc
    rcases List.mem_map.mp hc with ⟨v, hv, rfl⟩
    exact sextetChar_ne_pad v (hsx v hv)
  have hfil : ((encodeGroups bs).map sextetChar ++
      List.replicate ((4 - (encodeGroups bs).length % 4) % 4) '=').filter
        (fun c => !(isAsciiWhitespace c)) =
      (encodeGroups bs).map sextetChar ++
      List.replicate ((4 - (encodeGroups bs).length % 4) % 4) '=' := by
    rw [List.filter_eq_self]
    intro c hc
    rcases List.mem_append.mp hc with hc | hc
    · rcases List.mem_map.mp hc with ⟨v, hv, rfl⟩
      rw [sextetChar_not_ws v (hsx v hv)]
      rfl
    · have hceq : c = '=' := List.eq_of_mem_replicate hc
      subst hceq
      rfl
  have hlenmap : ((encodeGroups bs).map sextetChar).length = (encodeGroups bs).length :=
    List.length_map _ _
  have hstrip : stripPad ((encodeGroups bs).map sextetChar ++
      List.replicate ((4 - (encodeGroups bs).length % 4) % 4) '=') =
      (encodeGroups bs).map sextetChar := by
    have hs := stripPad_encode ((encodeGroups bs).map sextetChar) hm
      (by rw [hlenmap]; exact encodeGroups_len bs)
    rw [hlenmap] at hs
    exact hs
  simp only [decode, atob, base64Encode]
  rw [hfil, hstrip]
  rw [if_neg (by rw [hlenmap]; rcases encodeGroups_len bs with h0 | h2 | h3 <;> omega)]
  rw [sextetsOf?_map (encodeGroups bs) hsx]
  exact congrArg Except.ok (decodeQuads_encodeGroups bs h)

/-- A character outside the alphabet fails the whole lookup. -/
theorem sextetsOf?_none : ∀ (l : List Char) (c : Char), c ∈ l → b64Index c = none →
    sextetsOf? l = none
  | [], c, hc, _ => absurd hc (List.not_mem_nil c)
  | a :: l, c, hc, hnone => by
    unfold sextetsOf?
    rcases List.mem_cons.mp hc with rfl | hmem
    · rw [hnone]
    · cases hidx : b64Index a with
      | none => rfl
      | some v => rw [sextetsOf?_none l c hmem hnone]

/-- Stripping padding keeps every character other than `=`. -/
theorem stripPad_mem (cs : List Char) (c : Char) (hc : c ∈ cs) (hne : c ≠ '=') :
    c ∈ stripPad cs := by
  unfold stripPad
  split
  · split
    · next rest heq =>
      have hrev : c ∈ cs.reverse := List.mem_reverse.mpr hc
      rw [heq] at hrev
      rcases List.mem_cons.mp hrev with rfl | hrev2
      · exact absurd rfl hne
      rcases List.mem_cons.mp hrev2 with rfl | hrev3
      · exact absurd rfl hne
      exact List.mem_reverse.mpr hrev3
    · next rest heq =>
      have hrev : c ∈ cs.reverse := List.mem_reverse.mpr hc
      rw [heq] at hrev
      rcases List.mem_cons.mp hrev with rfl | hrev2
      · exact absurd rfl hne
      exact List.mem_reverse.mpr hrev2
    · exact hc
  · exact hc

/-- A character that is neither whitespace, nor padding, nor in the base64
alphabet makes the whole decode fail. -/
theorem decode_invalid_char (s : String) (c : Char) (hc : c ∈ s.data)
    (hws : isAsciiWhitespace c = false) (hne : c ≠ '=') (hnone : b64Index c = none) :
    decode s = .error .invalidInput := by
  have h1 : c ∈ s.data.filter (fun x => !(isAsciiWhitespace x)) :=
    List.mem_filter.mpr ⟨hc, by rw [hws]; rfl⟩
  have h2 : c ∈ stripPad (s.data.filter (fun x => !(isAsciiWhitespace x))) :=
    stripPad_mem _ c h1 hne
  simp only [decode, atob]
  split
  · rfl
  · rw [sextetsOf?_none _ c h2 hnone]

/-- Removing an ASCII whitespace character from any position of the input
does not change the decode result: the whitespace filter is the first step
of the platform primitive, so whitespace is stripped wherever it occurs. -/
theorem decode_ws_removal (l1 l2 : List Char) (c : Char)
    (hc : isAsciiWhitespace c = true) :
    decode (String.mk (l1 ++ c :: l2)) = decode (String.mk (l1 ++ l2)) := by
  simp only [decode, atob]
  rw [show (l1 ++ c :: l2).filter (fun x => !(isAsciiWhitespace x)) =
      (l1 ++ l2).filter (fun x => !(isAsciiWhitespace x)) by
    simp [List.filter_append, List.filter_cons, hc]]

/-- A non-whitespace character count ≡ 1 (mod 4) is structurally invalid
padding: no trailing `=` is stripped (stripping requires a length divisible
by 4) and the length check fails the decode. -/
theorem decode_len_mod_error (s : String)
    (h : (s.data.filter (fun c => !(isAsciiWhitespace c))).length % 4 = 1) :
    decode s = .error .invalidInput := by
  simp only [decode, atob]
  rw [show stripPad (s.data.filter (fun c => !(isAsciiWhitespace c))) =
      s.data.filter (fun c => !(isAsciiWhitespace c)) by
    unfold stripPad
    rw [if_neg (by omega)]]
  rw [if_pos h]

/-- A padding `=` that survives the removal of at most two trailing `=`
(misplaced padding as in "=AAA" or "AB=C", or excess padding as in "A===")
is structurally invalid: the alphabet lookup fails the decode. -/
theorem decode_pad_leftover_error (s : String)
    (h : '=' ∈ stripPad (s.data.filter (fun c => !(isAsciiWhitespace c)))) :
    decode s = .error .invalidInput := by
  simp only [decode, atob]
  split
  · rfl
  · rw [sextetsOf?_none _ '=' h (by decide)]

/-- Claim C6 (amended): a valid base64 string decodes to its corresponding
byte sequence with every element in [0, 255] (witnessed by the reference
encoder round-trip).  Unlike the original claim, ASCII whitespace, although
outside the base64 alphabet, is never an error: the platform's
forgiving-base64 primitive strips it first, at every position (removing a
whitespace character anywhere leaves the result unchanged).  A malformed
string fails with the platform DecodeError, propagated immediately with no
partial result (the result type has no partial-success value), in each of
the remaining cases: a character outside the base64 alphabet that is
neither whitespace nor `=`; a non-whitespace character count ≡ 1 (mod 4);
or a padding `=` that survives the strip of at most two trailing `=`
(misplaced or excess padding, e.g. "A===", "=AAA", "AB=C"). -/
theorem decode_contract :
    (∀ bs : List Nat, (∀ b ∈ bs, b < 256) → decode (base64Encode bs) = .ok bs) ∧
    (∀ (s : String) (bs : List Nat), decode s = .ok bs → ∀ b ∈ bs, b < 256) ∧
    (∀ (l1 l2 : List Char) (c : Char), isAsciiWhitespace c = true →
      decode (String.mk (l1 ++ c :: l2)) = decode (String.mk (l1 ++ l2))) ∧
    (∀ (s : String) (c : Char), c ∈ s.data → isAsciiWhitespace c = false → c ≠ '=' →
      b64Index c = none → decode s = .error .invalidInput) ∧
    (∀ s : String, (s.data.filter (fun c => !(isAsciiWhitespace c))).length % 4 = 1 →
      decode s = .error .invalidInput) ∧
    (∀ s : String, '=' ∈ stripPad (s.data.filter (fun c => !(isAsciiWhitespace c))) →
      decode s = .error .invalidInput) :=
  ⟨decode_base64Encode, decode_ok_range, decode_ws_removal, decode_invalid_char,
   decode_len_mod_error, decode_pad_leftover_error⟩

/-- Claim C6 counterexample: the string "QU JD" contains a space — a
character outside the base64 alphabet — so under the claim it is malformed
and the decoder must fail with a DecodeError; the decoder instead strips
ASCII whitespace (forgiving-base64) and succeeds, returning the bytes of
"ABC". -/
theorem decode_whitespace_tolerated :
    decode "QU JD" = Except.ok [65, 66, 67] ∧ b64Index ' ' = none ∧
    ' ' ∈ "QU JD".data :=
  ⟨by decide, by decide, by decide⟩

/-- Claim C6 witness: the byte sequence [1, 2, 255] round-trips through the
reference encoder; removing the space of "Q UJD" leaves the result
unchanged; and the malformed inputs "$$$$" (invalid character), "A"
(character count ≡ 1 mod 4) and "A===" (excess padding) are rejected. -/
theorem decode_contract_witness :
    (∀ b ∈ ([1, 2, 255] : List Nat), b < 256) ∧
    decode (base64Encode [1, 2, 255]) = Except.ok [1, 2, 255] ∧
    decode (String.mk (['Q'] ++ ' ' :: ['U', 'J', 'D'])) =
      decode (String.mk (['Q'] ++ ['U', 'J', 'D'])) ∧
    decode "$$$$" = Except.error DecodeError.invalidInput ∧
    decode "A" = Except.error DecodeError.invalidInput ∧
    decode "A===" = Except.error DecodeError.invalidInput :=
  ⟨by decide, decode_contract.1 [1, 2, 255] (by decide),
   decode_contract.2.2.1 ['Q'] ['U', 'J', 'D'] ' ' (by decide),
   decode_contract.2.2.2.1 "$$$$" '$' (by decide) (by decide) (by decide) (by decide),
   decode_contract.2.2.2.2.1 "A" (by decide),
   decode_contract.2.2.2.2.2 "A===" (by decide)⟩

example : decode "" = .ok [] := by decide
example : decode "AAA=" = .ok [0, 0] := by decide
example : decode "QUJD" = .ok [65, 66, 67] := by decide
example : decode "QU JD" = .ok [65, 66, 67] := by decide
example : decode "%" = .error .invalidInput := by decide
example : decode "A" = .error .invalidInput := by decide
example : decode "A===" = .error .invalidInput := by decide
example : base64Encode [65, 66, 67] = "QUJD" := by decide
example : base64Encode [0, 0] = "AAA=" := by decide
example : decode (base64Encode [255, 254, 1]) = .ok [255, 254, 1] := by decide
